import Mathlib

/-!
Verification of the map-parsing / rendering / inventory-formatting core of the
`dobl-whoami-bot` repository (files `mapparser.py` and `player.py`), as a
shallow embedding in Lean 4.

Modelling conventions:
* Python `%` and `//` on integers are `Int.emod` / `Int.ediv` (both give the
  Euclidean/floor behaviour Python has for positive divisors, which is the
  only case the code uses).
* XML elements are modelled as records whose fields are the already-parsed
  attribute values the code reads (`int(obj.attrib["x"])` etc.).  A property's
  value is modelled as its resolved string (`prop.attrib.get("value") or
  prop.text`); properties carrying neither are not modelled.
* Code that can raise is embedded in `Option`/`Except`; `none`/`.error`
  stands for the raised exception.
* Python string upper/lower-casing is modelled for the ASCII and Cyrillic
  ranges the game data uses.
-/

/-! ## Python-primitive helpers -/

/-- Decimal value of a list of digit characters. -/
def digitsToNat (ds : List Char) : Nat :=
  ds.foldl (fun a c => a * 10 + (c.toNat - '0'.toNat)) 0

/-- Python `int(s)` for an optionally signed decimal literal (whitespace and
underscore forms are not modelled; the repository only feeds plain decimals). -/
def pyParseInt (s : String) : Option Int :=
  let core : List Char → Option Int := fun ds =>
    if ds.isEmpty ∨ ¬ ds.all Char.isDigit then none else some (digitsToNat ds)
  match s.data with
  | '-' :: ds => (core ds).map (fun n => -n)
  | '+' :: ds => core ds
  | ds => core ds

/-- Python `float(s)` for an optionally signed plain decimal literal, as an
exact rational.  The values this development evaluates (small decimals such as
`100`) are exactly representable as doubles, so the rational equals the float. -/
def pyParseQ (s : String) : Option ℚ :=
  let signed : List Char → (ℚ → ℚ) × List Char := fun cs =>
    match cs with
    | '-' :: r => (fun q => -q, r)
    | '+' :: r => (id, r)
    | r => (id, r)
  let (sgn, cs) := signed s.data
  let ip := cs.takeWhile Char.isDigit
  match cs.drop ip.length with
  | [] => if ip.isEmpty then none else some (sgn (digitsToNat ip : ℚ))
  | '.' :: frac =>
    if frac.all Char.isDigit ∧ (¬ ip.isEmpty ∨ ¬ frac.isEmpty) then
      some (sgn ((digitsToNat ip : ℚ) + (digitsToNat frac : ℚ) / (10 ^ frac.length)))
    else none
  | _ => none

/-- Python `repr`/`str` of a float.  For a float whose value is integral (the
only case this development evaluates; e.g. `100.0`) the shortest round-trip
representation Python prints is the integer followed by `.0`. -/
def pyFloatRepr (q : ℚ) : String :=
  if q.den = 1 then toString q.num ++ ".0" else toString q

/-- Python `str.replace(pat, repl)` for a non-empty pattern: left-to-right,
non-overlapping.  (Fuelled; fuel `length + 1` suffices since every
replacement consumes at least one character.) -/
def pyReplaceL (pat repl : List Char) : Nat → List Char → List Char
  | 0, cs => cs
  | _ + 1, [] => []
  | fuel + 1, c :: cs =>
    if pat.isPrefixOf (c :: cs) then
      repl ++ pyReplaceL pat repl fuel ((c :: cs).drop pat.length)
    else c :: pyReplaceL pat repl fuel cs

def pyReplace (s pat repl : String) : String :=
  String.mk (pyReplaceL pat.data repl.data (s.data.length + 1) s.data)

/-- Split on the characters satisfying `p`, keeping empty pieces
(so `split('/') "a/b" = ["a","b"]`, `split "" = [""]`). -/
def splitCharsL (p : Char → Bool) : List Char → List (List Char)
  | [] => [[]]
  | c :: cs =>
    if p c then [] :: splitCharsL p cs
    else
      match splitCharsL p cs with
      | [] => [[c]]
      | q :: qs => (c :: q) :: qs

/-- Python `str.split(sep)` for a one-character separator (the only kind the
code uses). -/
def pySplitOn (s : String) (sep : Char) : List String :=
  (splitCharsL (· == sep) s.data).map String.mk

/-- Python `str.split()` with no separator: split on whitespace,
dropping empty pieces. -/
def pySplitWS (s : String) : List String :=
  ((splitCharsL (fun c => c == ' ' || c == '\t' || c == '\n' || c == '\r')
    s.data).map String.mk).filter (· ≠ "")

/-- Python upper-casing of one character, modelled for ASCII and Cyrillic. -/
def pyUpperChar (c : Char) : Char :=
  if 'a' ≤ c ∧ c ≤ 'z' then Char.ofNat (c.toNat - 32)
  else if 'а' ≤ c ∧ c ≤ 'я' then Char.ofNat (c.toNat - 32)
  else if c = 'ё' then 'Ё' else c

/-- Python lower-casing of one character, modelled for ASCII and Cyrillic. -/
def pyLowerChar (c : Char) : Char :=
  if 'A' ≤ c ∧ c ≤ 'Z' then Char.ofNat (c.toNat + 32)
  else if 'А' ≤ c ∧ c ≤ 'Я' then Char.ofNat (c.toNat + 32)
  else if c = 'Ё' then 'ё' else c

/-- Python `str.lower()`, modelled character-wise. -/
def pyLower (s : String) : String := String.mk (s.data.map pyLowerChar)

/-- Python `str([x, y])` for a two-element integer list. -/
def pyIntPairStr (x y : Int) : String :=
  "[" ++ toString x ++ ", " ++ toString y ++ "]"

/-- `needle in hay` for strings (substring containment), on character lists. -/
def listContainsSub (needle : List Char) : List Char → Bool
  | [] => needle.isEmpty
  | c :: t => needle.isPrefixOf (c :: t) || listContainsSub needle t

/-- `colorama` escape sequences used by the code. -/
def resetAll : String := "\x1b[0m"
def foreRed : String := "\x1b[31m"
def foreGreen : String := "\x1b[32m"
def foreYellow : String := "\x1b[33m"
def foreBlue : String := "\x1b[34m"
def foreMagenta : String := "\x1b[35m"
def foreWhite : String := "\x1b[37m"
def foreBlack : String := "\x1b[30m"
def backWhite : String := "\x1b[47m"

/-! ## Loose (alphabet-aware) character equality — `Map.__loose_char_equals` -/

/-- `Map.LAT_CYR_LOOKALIKES` from `mapparser.py`. -/
def LAT_CYR_LOOKALIKES : List (Char × Char) :=
  [('A', 'А'), ('B', 'В'), ('E', 'Е'), ('K', 'К'), ('M', 'М'), ('H', 'Н'),
   ('O', 'О'), ('P', 'Р'), ('C', 'С'), ('T', 'Т'), ('X', 'Х'), ('Y', 'У'),
   ('a', 'а'), ('b', 'в'), ('e', 'е'), ('k', 'к'), ('m', 'м'), ('h', 'н'),
   ('o', 'о'), ('p', 'р'), ('c', 'с'), ('t', 'т'), ('x', 'х'), ('y', 'у')]

/-- `Map.__loose_char_equals`: order the two characters by code point, then
test membership in the look-alike table, else plain equality. -/
def looseCharEquals (char1 char2 : Char) : Bool :=
  let p := if char1.toNat > char2.toNat then (char2, char1) else (char1, char2)
  if LAT_CYR_LOOKALIKES.contains p then true else p.1 == p.2

/-- `Map.__loose_char_in`: membership in a container under loose equality. -/
def looseCharIn (c : Char) (container : List Char) : Bool :=
  container.any (fun c' => looseCharEquals c c')

theorem looseCharEquals_refl (c : Char) : looseCharEquals c c = true := by
  simp [looseCharEquals]

theorem looseCharEquals_symm (c1 c2 : Char) :
    looseCharEquals c1 c2 = looseCharEquals c2 c1 := by
  unfold looseCharEquals
  rcases Nat.lt_trichotomy c1.toNat c2.toNat with h | h | h
  · simp [Nat.not_lt.mpr (Nat.le_of_lt h), h]
  · have : c1 = c2 := Char.eq_of_val_eq (by
      apply UInt32.eq_of_val_eq
      apply Fin.eq_of_val_eq
      exact h)
    subst this; rfl
  · simp [Nat.not_lt.mpr (Nat.le_of_lt h), h]

/-- Claim C4: the loose character equality used for legend glyph
de-duplication is reflexive for every character and symmetric for every pair
(the comparison first orders the two characters by code point before testing
table membership); `looseCharEquals 'A' 'А'` (Latin/Cyrillic) holds while
`looseCharEquals 'A' 'B'` does not. -/
theorem loose_char_equals_spec :
    (∀ c : Char, looseCharEquals c c = true)
    ∧ (∀ c1 c2 : Char, looseCharEquals c1 c2 = looseCharEquals c2 c1)
    ∧ looseCharEquals 'A' 'А' = true
    ∧ looseCharEquals 'A' 'B' = false :=
  ⟨looseCharEquals_refl, looseCharEquals_symm, by decide, by decide⟩

/-! ## Python string ordering (code-point lexicographic), executable -/

/-- Python `<` on strings: lexicographic comparison by code point, a proper
prefix being smaller. -/
def charListLt : List Char → List Char → Bool
  | [], [] => false
  | [], _ :: _ => true
  | _ :: _, [] => false
  | a :: as, b :: bs =>
    if a.toNat < b.toNat then true
    else if b.toNat < a.toNat then false
    else charListLt as bs

def pyStrLt (a b : String) : Bool := charListLt a.data b.data

/-- Python `<=` on strings, as the negation of the reverse strict order. -/
def pyStrLe (a b : String) : Bool := !(pyStrLt b a)

theorem charListLt_cons {x y : Char} {xs ys : List Char} :
    charListLt (x :: xs) (y :: ys) = true ↔
      x.toNat < y.toNat ∨ (x.toNat = y.toNat ∧ charListLt xs ys = true) := by
  simp only [charListLt]
  by_cases h1 : x.toNat < y.toNat
  · simp [h1]
  · by_cases h2 : y.toNat < x.toNat
    · rw [if_neg h1, if_pos h2]
      constructor
      · intro hf; exact Bool.noConfusion hf
      · rintro (h | ⟨e, -⟩)
        · exact absurd h h1
        · exact absurd e (by omega)
    · have e : x.toNat = y.toNat := by omega
      rw [if_neg h1, if_neg h2]
      constructor
      · intro t; exact Or.inr ⟨e, t⟩
      · rintro (h | ⟨-, t⟩)
        · exact absurd h h1
        · exact t

theorem charListLt_trans {a b c : List Char} (h1 : charListLt a b = true)
    (h2 : charListLt b c = true) : charListLt a c = true := by
  induction a generalizing b c with
  | nil =>
    cases c with
    | nil => cases b <;> simp_all [charListLt]
    | cons c cs => simp [charListLt]
  | cons x xs ih =>
    cases b with
    | nil => simp [charListLt] at h1
    | cons y ys =>
      cases c with
      | nil => simp [charListLt] at h2
      | cons z zs =>
        rw [charListLt_cons] at h1 h2 ⊢
        rcases h1 with h1 | ⟨e1, t1⟩ <;> rcases h2 with h2 | ⟨e2, t2⟩
        · exact Or.inl (by omega)
        · exact Or.inl (by omega)
        · exact Or.inl (by omega)
        · exact Or.inr ⟨by omega, ih t1 t2⟩

theorem charListLt_asymm {a b : List Char} (h : charListLt a b = true) :
    charListLt b a = false := by
  induction a generalizing b with
  | nil => cases b <;> simp_all [charListLt]
  | cons x xs ih =>
    cases b with
    | nil => simp [charListLt] at h
    | cons y ys =>
      rw [charListLt_cons] at h
      rcases h with h | ⟨e, t⟩
      · rw [Bool.eq_false_iff]
        intro hc; rw [charListLt_cons] at hc
        rcases hc with hc | ⟨e', _⟩ <;> omega
      · rw [Bool.eq_false_iff]
        intro hc; rw [charListLt_cons] at hc
        rcases hc with hc | ⟨_, t'⟩
        · omega
        · exact (Bool.eq_false_iff.mp (ih t)) t'

theorem charListLt_trichotomy (a b : List Char) :
    charListLt a b = true ∨ charListLt b a = true ∨ a = b := by
  induction a generalizing b with
  | nil => cases b <;> simp [charListLt]
  | cons x xs ih =>
    cases b with
    | nil => simp [charListLt]
    | cons y ys =>
      rcases Nat.lt_trichotomy x.toNat y.toNat with h | h | h
      · exact Or.inl (charListLt_cons.mpr (Or.inl h))
      · have hxy : x = y := Char.eq_of_val_eq (by
          apply UInt32.eq_of_val_eq
          apply Fin.eq_of_val_eq
          exact h)
        rcases ih ys with ht | ht | ht
        · exact Or.inl (charListLt_cons.mpr (Or.inr ⟨h, ht⟩))
        · exact Or.inr (Or.inl (charListLt_cons.mpr (Or.inr ⟨h.symm, ht⟩)))
        · exact Or.inr (Or.inr (by rw [hxy, ht]))
      · exact Or.inr (Or.inl (charListLt_cons.mpr (Or.inl h)))

/-- `pyStrLe` is transitive. -/
theorem pyStrLe_trans {a b c : String} (h1 : pyStrLe a b = true)
    (h2 : pyStrLe b c = true) : pyStrLe a c = true := by
  unfold pyStrLe pyStrLt at h1 h2 ⊢
  rw [Bool.not_eq_true'] at h1 h2
  rw [Bool.not_eq_true', Bool.eq_false_iff]
  intro hca
  rcases charListLt_trichotomy b.data c.data with hbc | hcb | hbceq
  · exact Bool.eq_false_iff.mp h1 (charListLt_trans hbc hca)
  · exact Bool.eq_false_iff.mp h2 hcb
  · exact Bool.eq_false_iff.mp h1 (by rw [hbceq]; exact hca)

/-! ## Data model: the parsed map document -/

/-- `TileIDs` enumeration from `mapparser.py`. -/
inductive TileIDs where
  | NULL | EMPTY | ABYSS | ENEMY | MERCHANT | EVENT
deriving DecidableEq

/-- Python `TileIDs(n)`: decode an integer to the enumeration
(`ValueError`, i.e. `none`, outside `0..5`). -/
def toTileID : Int → Option TileIDs
  | 0 => some .NULL
  | 1 => some .EMPTY
  | 2 => some .ABYSS
  | 3 => some .ENEMY
  | 4 => some .MERCHANT
  | 5 => some .EVENT
  | _ => none

/-- A `<chunk>` of a tile layer: declared origin attributes and the
comma-separated integer ID list of its text, already parsed. -/
structure Chunk where
  x : Int
  y : Int
  data : List Int
deriving DecidableEq

/-- A `<layer>` element: its `name` attribute and the chunks under its
`<data>` child. -/
structure Layer where
  name : String
  chunks : List Chunk
deriving DecidableEq

/-- An `<object>` element of an object group.  `name?`/`cls?` model the
optional `name`/`class` attributes; `x`,`y`,`width`,`height` the integer
coordinate attributes (`0` when absent — only floor objects, which always
declare them, have their sizes read); `props` the resolved
`<properties>/<property>` name/value pairs in document order; `hasChildren`
models Python's `bool(element)` (true iff the element has child elements),
which `Map.get_player`'s `if not pl:` tests. -/
structure MapObject where
  name? : Option String
  x : Int
  y : Int
  width : Int
  height : Int
  cls? : Option String
  props : List (String × String)
  hasChildren : Bool
deriving DecidableEq

/-- An `<objectgroup>` element. -/
structure ObjectGroup where
  name : String
  objects : List MapObject
deriving DecidableEq

/-- The parsed map document root. -/
structure GameMap where
  objectgroups : List ObjectGroup
  layers : List Layer
deriving DecidableEq

/-- `floor.Floor`: a named rectangle in pixel space. -/
structure Floor where
  start : Int × Int
  size : Int × Int
  name : String
deriving DecidableEq

/-- Python `props.get(key, default)` on a dict built by a comprehension
(later duplicate keys win, hence the reversed search). -/
def pyGet (props : List (String × String)) (key dflt : String) : String :=
  match props.reverse.find? (fun kv => kv.1 == key) with
  | some kv => kv.2
  | none => dflt

/-- Python `key in props` style lookup: `some value` iff the key occurs. -/
def pyGet? (props : List (String × String)) (key : String) : Option String :=
  (props.reverse.find? (fun kv => kv.1 == key)).map (·.2)

/-- The three renderable object-group layer names. -/
def renderLayers : List String := ["нижний", "средний", "верхний"]

/-- `Map.__search_object`: first object with the given `name` attribute in
the three render layers (objects lacking a name are skipped). -/
def searchObject (m : GameMap) (objectname : String) : Option MapObject :=
  ((m.objectgroups.filter (fun g => renderLayers.contains g.name)).flatMap
    (fun g => g.objects)).find? (fun o => o.name? == some objectname)

/-! ## Tile resolver — `Map.__get_tile` -/

/-- All chunks of the reserved floor tile layer(s) named `"пол"`, in
document order: the scan order of `Map.__get_tile`. -/
def floorChunks (m : GameMap) : List Chunk :=
  (m.layers.filter (fun l => l.name == "пол")).flatMap (fun l => l.chunks)

/-- Decoding one chunk at a tile coordinate: flat ID list indexed by
`(y mod 16) * 16 + (x mod 16)`; `none`-like failures become errors
(`IndexError` for a missing index, `ValueError` for an ID outside the
enumeration). -/
def chunkDecode (c : Chunk) (x y : Int) : Except String TileIDs :=
  match c.data.get? ((y % 16) * 16 + x % 16).toNat with
  | none => .error "IndexError"
  | some v =>
    match toTileID v with
    | none => .error ("ValueError: " ++ toString v ++ " is not a valid TileIDs")
    | some t => .ok t

/-- `Map.__get_tile`: find the chunk of a floor layer whose declared origin
equals the coordinate rounded down to a multiple of 16 per axis (the nested
for-loops with early return are the first match over `floorChunks`), decode
it, or raise `Exception("Unknown tile at position " + str(pos))`. -/
def getTile (m : GameMap) (pos : Int × Int) : Except String TileIDs :=
  let cx := pos.1 - pos.1 % 16
  let cy := pos.2 - pos.2 % 16
  match (floorChunks m).find? (fun c => c.x == cx && c.y == cy) with
  | some c => chunkDecode c pos.1 pos.2
  | none => .error ("Unknown tile at position " ++ pyIntPairStr pos.1 pos.2)

/-- Claim C1: for every integer tile coordinate `(x, y)`, the tile lookup
selects the first chunk of the reserved floor tile layer whose declared
origin equals `(x - x mod 16, y - y mod 16)` and returns the `TileIDs` value
decoded from that chunk's flat ID array at index
`(y mod 16) * 16 + (x mod 16)`; when no chunk with that origin exists it
fails fatally with a message naming the offending coordinate. -/
theorem get_tile_spec (m : GameMap) (x y : Int) :
    ((∀ c ∈ floorChunks m, ¬ (c.x = x - x % 16 ∧ c.y = y - y % 16)) →
      getTile m (x, y) =
        .error ("Unknown tile at position [" ++ toString x ++ ", " ++ toString y ++ "]"))
    ∧ (∀ c : Chunk,
        (floorChunks m).find?
            (fun c => c.x == x - x % 16 && c.y == y - y % 16) = some c →
        getTile m (x, y) = chunkDecode c x y) := by
  constructor
  · intro h
    have hnone : (floorChunks m).find?
        (fun c => c.x == x - x % 16 && c.y == y - y % 16) = none := by
      rw [List.find?_eq_none]
      intro c hc
      have := h c hc
      simp only [Bool.and_eq_true, beq_iff_eq]
      intro hcontra
      exact this ⟨hcontra.1, hcontra.2⟩
    simp only [getTile, hnone, pyIntPairStr]
    rfl
  · intro c hc
    simp only [getTile, hc]

/-- Witness for C1: a concrete one-chunk map; the lookup succeeds inside the
chunk and fails with the coordinate-naming message elsewhere. -/
def chunkW : Chunk := { x := 0, y := 0, data := List.replicate 256 1 }

def mapW : GameMap :=
  { objectgroups := [],
    layers := [{ name := "пол", chunks := [chunkW] }] }

set_option maxRecDepth 100000 in
theorem get_tile_spec_witness :
    getTile mapW (3, 2) = chunkDecode chunkW 3 2
    ∧ getTile mapW (100, 0) =
        .error ("Unknown tile at position [" ++ toString (100 : Int) ++ ", " ++ toString (0 : Int) ++ "]") :=
  ⟨(get_tile_spec mapW 3 2).2 chunkW (by decide),
   (get_tile_spec mapW 100 0).1 (by decide)⟩

/-! ## The Player record — `player.Player` -/

/-- `player.Player`: the value object built by `Map.get_player`.  `position`
holds the object's coordinate attributes (the code stores them as strings and
applies `int()` at every use site; they are modelled already parsed).
`maxHP`/`maxMP`/`SP` are Python floats, modelled as exact rationals. -/
structure Player where
  position : Int × Int
  name : String
  inventory : List String
  HP : Int
  maxHP : ℚ
  trueHP : Int
  MP : Int
  maxMP : ℚ
  trueMP : Int
  SP : ℚ
  level : Int
  frags : String
  active_abilities : List String
  passive_abilities : List String
  rerolls : Int
  group : String
  isBlind : Bool
  isDead : Bool
deriving DecidableEq

/-- `Player.format_HP`: `f"{self.HP}/{self.maxHP} ({self.trueHP})"`. -/
def formatHP (p : Player) : String :=
  toString p.HP ++ "/" ++ pyFloatRepr p.maxHP ++ " (" ++ toString p.trueHP ++ ")"

/-! ## Floor locator — `Map.__get_floor_px` and friends -/

/-- `Map.__get_floor_px`: first object of the `"этажи"` group whose
half-open rectangle contains the pixel position. -/
def getFloorPx (m : GameMap) (objPos : Int × Int) : Option Floor :=
  (((m.objectgroups.filter (fun g => g.name == "этажи")).flatMap
      (fun g => g.objects)).find? (fun o =>
        o.x ≤ objPos.1 && o.y ≤ objPos.2 &&
        objPos.1 < o.x + o.width && objPos.2 < o.y + o.height)).map
    (fun o => { start := (o.x, o.y), size := (o.width, o.height),
                name := o.name?.getD "???" })

/-- `Map.__get_floor_tile`: same at a tile coordinate (scaled by 32). -/
def getFloorTile (m : GameMap) (tilePos : Int × Int) : Option Floor :=
  getFloorPx m (tilePos.1 * 32, tilePos.2 * 32)

/-- `Map.__get_floor_player`: the floor at the player's pixel position. -/
def getFloorPlayer (m : GameMap) (p : Player) : Option Floor :=
  getFloorPx m (p.position.1, p.position.2)

/-! ## Door finder — `Map.__list_doors` and `Map.list_doors_string` -/

/-- The player's room coordinate (pixel position integer-divided by 32). -/
def roomX (p : Player) : Int := p.position.1 / 32
def roomY (p : Player) : Int := p.position.2 / 32

/-- The player's local cell in the room's 8×8 grid
(pixel position mod 32, integer-divided by 4). -/
def localX (p : Player) : Int := (p.position.1 % 32) / 4
def localY (p : Player) : Int := (p.position.2 % 32) / 4

/-- `getattr(self.__get_floor_tile(pos), "name", None) == floor.name`:
true iff a floor exists at the tile position and carries that name
(`None == name` is false in Python). -/
def floorNameAt (m : GameMap) (pos : Int × Int) : Option String :=
  (getFloorTile m pos).map Floor.name

/-- One direction's contribution to the door list: the outer tile/floor test,
then the blindness edge gate. -/
def doorIf (cond : Bool) (isBlind : Bool) (edge : Bool) (dir : String) : List String :=
  if cond then
    (if isBlind then (if edge then [dir] else []) else [dir])
  else []

/-- `Map.__list_doors`: for each cardinal neighbour of the player's room, a
door needs the neighbour tile to be neither `NULL` nor `ABYSS` and the
neighbour's floor name to equal the player's floor name; a blind player also
needs to sit on the facing edge cell.  Tile lookups can raise, in the order
north, south, west, east. -/
def listDoors (m : GameMap) (p : Player) : Except String (List String) :=
  match getFloorPlayer m p with
  | none => .ok []
  | some fl => do
    let tn ← getTile m (roomX p, roomY p - 1)
    let ts ← getTile m (roomX p, roomY p + 1)
    let tw ← getTile m (roomX p - 1, roomY p)
    let te ← getTile m (roomX p + 1, roomY p)
    pure
      (doorIf (decide ((tn ≠ .NULL ∧ tn ≠ .ABYSS) ∧
          floorNameAt m (roomX p, roomY p - 1) = some fl.name))
          p.isBlind (decide (localY p = 0)) "север"
        ++ doorIf (decide ((ts ≠ .NULL ∧ ts ≠ .ABYSS) ∧
          floorNameAt m (roomX p, roomY p + 1) = some fl.name))
          p.isBlind (decide (localY p = 7)) "юг"
        ++ doorIf (decide ((tw ≠ .NULL ∧ tw ≠ .ABYSS) ∧
          floorNameAt m (roomX p - 1, roomY p) = some fl.name))
          p.isBlind (decide (localX p = 0)) "запад"
        ++ doorIf (decide ((te ≠ .NULL ∧ te ≠ .ABYSS) ∧
          floorNameAt m (roomX p + 1, roomY p) = some fl.name))
          p.isBlind (decide (localX p = 7)) "восток")

theorem mem_doorIf (s : String) (cond isBlind edge : Bool) :
    (s ∈ doorIf cond isBlind edge s) ↔
      (cond = true ∧ (isBlind = true → edge = true)) := by
  cases cond <;> cases isBlind <;> cases edge <;> simp [doorIf]

theorem not_mem_doorIf {s dir : String} (hne : s ≠ dir)
    (cond isBlind edge : Bool) : s ∉ doorIf cond isBlind edge dir := by
  cases cond <;> cases isBlind <;> cases edge <;> simp [doorIf, hne]

/-- Claim C2: for a player standing on a declared floor, a cardinal direction
appears in the door list iff the neighbouring room's tile is neither `NULL`
nor `ABYSS` and the neighbouring room lies on a floor with the player's
floor's name; when the player is blind the direction additionally requires
the player's 8×8 local cell to sit on the facing edge (row/column 0 or 7). -/
theorem list_doors_spec (m : GameMap) (p : Player) (fl : Floor)
    (tn ts tw te : TileIDs) (doors : List String)
    (hfl : getFloorPlayer m p = some fl)
    (hn : getTile m (roomX p, roomY p - 1) = .ok tn)
    (hs : getTile m (roomX p, roomY p + 1) = .ok ts)
    (hw : getTile m (roomX p - 1, roomY p) = .ok tw)
    (he : getTile m (roomX p + 1, roomY p) = .ok te)
    (hd : listDoors m p = .ok doors) :
    (("север" ∈ doors) ↔
      ((tn ≠ .NULL ∧ tn ≠ .ABYSS) ∧ floorNameAt m (roomX p, roomY p - 1) = some fl.name)
      ∧ (p.isBlind = true → localY p = 0))
    ∧ (("юг" ∈ doors) ↔
      ((ts ≠ .NULL ∧ ts ≠ .ABYSS) ∧ floorNameAt m (roomX p, roomY p + 1) = some fl.name)
      ∧ (p.isBlind = true → localY p = 7))
    ∧ (("запад" ∈ doors) ↔
      ((tw ≠ .NULL ∧ tw ≠ .ABYSS) ∧ floorNameAt m (roomX p - 1, roomY p) = some fl.name)
      ∧ (p.isBlind = true → localX p = 0))
    ∧ (("восток" ∈ doors) ↔
      ((te ≠ .NULL ∧ te ≠ .ABYSS) ∧ floorNameAt m (roomX p + 1, roomY p) = some fl.name)
      ∧ (p.isBlind = true → localX p = 7)) := by
  simp only [listDoors, hfl, hn, hs, hw, he, bind, Except.bind, pure, Except.pure] at hd
  injection hd with hd
  subst hd
  refine ⟨?_, ?_, ?_, ?_⟩
  · simp only [List.mem_append, mem_doorIf,
      not_mem_doorIf (show ("север" : String) ≠ "юг" by decide),
      not_mem_doorIf (show ("север" : String) ≠ "запад" by decide),
      not_mem_doorIf (show ("север" : String) ≠ "восток" by decide),
      or_false, false_or, decide_eq_true_iff]
  · simp only [List.mem_append, mem_doorIf,
      not_mem_doorIf (show ("юг" : String) ≠ "север" by decide),
      not_mem_doorIf (show ("юг" : String) ≠ "запад" by decide),
      not_mem_doorIf (show ("юг" : String) ≠ "восток" by decide),
      or_false, false_or, decide_eq_true_iff]
  · simp only [List.mem_append, mem_doorIf,
      not_mem_doorIf (show ("запад" : String) ≠ "север" by decide),
      not_mem_doorIf (show ("запад" : String) ≠ "юг" by decide),
      not_mem_doorIf (show ("запад" : String) ≠ "восток" by decide),
      or_false, false_or, decide_eq_true_iff]
  · simp only [List.mem_append, mem_doorIf,
      not_mem_doorIf (show ("восток" : String) ≠ "север" by decide),
      not_mem_doorIf (show ("восток" : String) ≠ "юг" by decide),
      not_mem_doorIf (show ("восток" : String) ≠ "запад" by decide),
      or_false, false_or, decide_eq_true_iff]

/-- Concrete door-finder scenario: one floor of 2×1 rooms, an all-`EMPTY`
chunk at the origin and all-`NULL` chunks to its north and west. -/
def floorObjW : MapObject :=
  { name? := some "Floor1", x := 0, y := 0, width := 64, height := 32,
    cls? := none, props := [], hasChildren := false }

def floorW : Floor := { start := (0, 0), size := (64, 32), name := "Floor1" }

def mapDW : GameMap :=
  { objectgroups := [{ name := "этажи", objects := [floorObjW] }],
    layers := [{ name := "пол", chunks :=
      [{ x := 0, y := 0, data := List.replicate 256 1 },
       { x := 0, y := -16, data := List.replicate 256 0 },
       { x := -16, y := 0, data := List.replicate 256 0 }] }] }

def playerW : Player :=
  { position := (8, 8), name := "Тест", inventory := [""],
    HP := 100, maxHP := 100, trueHP := 100, MP := 100, maxMP := 100,
    trueMP := 100, SP := 3, level := 1, frags := "0/4",
    active_abilities := [""], passive_abilities := [""], rerolls := 2,
    group := "", isBlind := false, isDead := false }

set_option maxRecDepth 100000 in
theorem list_doors_spec_witness :
    ("восток" ∈ (["восток"] : List String)) ↔
      ((TileIDs.EMPTY ≠ TileIDs.NULL ∧ TileIDs.EMPTY ≠ TileIDs.ABYSS)
        ∧ floorNameAt mapDW (roomX playerW + 1, roomY playerW) = some floorW.name)
      ∧ (playerW.isBlind = true → localX playerW = 7) :=
  (list_doors_spec mapDW playerW floorW .NULL .EMPTY .NULL .EMPTY ["восток"]
    rfl rfl rfl rfl rfl rfl).2.2.2

/-- The sentence construction of `Map.list_doors_string`: an explicit 0–4
case table over the door list's length (Python leaves `resp` unbound for
length ≥ 5, an `UnboundLocalError`, hence `none` there). -/
def doorsSentence (doors : List String) (isBlind : Bool) : Option String :=
  match doors with
  | [] => some ("В этой комнате нет дверей" ++ (if isBlind then "?" else "."))
  | [d0] => some ("Единственная дверь ведёт на " ++ d0 ++ ".")
  | [d0, d1] => some ("Двери ведут на " ++ d0 ++ " и " ++ d1 ++ ".")
  | [d0, d1, d2] =>
    some ("Двери ведут на " ++ d0 ++ ", " ++ d1 ++ " и " ++ d2 ++ ".")
  | [_, _, _, _] => some "Двери ведут на 4 стороны света."
  | _ => none

/-- `Map.list_doors_string`: the sentence of the computed door list. -/
def listDoorsString (m : GameMap) (p : Player) : Except String (Option String) :=
  (listDoors m p).map (fun doors => doorsSentence doors p.isBlind)

/-- Claim C8: the door-description sentence is a pure function of the ordered
door list given by an explicit 0–4 case table: `[]` yields the no-doors
sentence (uncertainty marker instead of the period when blind), one element
the single-door sentence, two/three elements comma-joined sentences with a
final conjunction, and any four-element list the fixed four-directions
sentence regardless of order. -/
theorem doors_sentence_spec (b : Bool) (d0 d1 d2 : String) (l : List String)
    (h4 : l.length = 4) :
    doorsSentence [] b =
      some ("В этой комнате нет дверей" ++ (if b then "?" else "."))
    ∧ doorsSentence [d0] b = some ("Единственная дверь ведёт на " ++ d0 ++ ".")
    ∧ doorsSentence [d0, d1] b =
      some ("Двери ведут на " ++ d0 ++ " и " ++ d1 ++ ".")
    ∧ doorsSentence [d0, d1, d2] b =
      some ("Двери ведут на " ++ d0 ++ ", " ++ d1 ++ " и " ++ d2 ++ ".")
    ∧ doorsSentence l b = some "Двери ведут на 4 стороны света." := by
  refine ⟨rfl, rfl, rfl, rfl, ?_⟩
  match l, h4 with
  | [_, _, _, _], _ => rfl

theorem doors_sentence_spec_witness :
    doorsSentence ["восток", "запад", "юг", "север"] false =
      some "Двери ведут на 4 стороны света." :=
  (doors_sentence_spec false "north" "south" "west"
    ["восток", "запад", "юг", "север"] rfl).2.2.2.2

/-! ## Room objects — `Map.get_same_room_objects` -/

/-- One tuple `(name, local-x, local-y, class)` appended by
`Map.get_same_room_objects`. -/
structure RoomObj where
  name : String
  x : Int
  y : Int
  cls : String
deriving DecidableEq

/-- The sort key `x[0] + str(x[1]) + str(x[2])`: string concatenation of the
name with the decimal renderings of the local coordinates. -/
def concatKey (o : RoomObj) : String :=
  o.name ++ toString o.x ++ toString o.y

/-- The collection pass of `Map.get_same_room_objects`, in document order:
objects of the three render layers in the player's 32×32 room, hidden ones
kept only for their owner, their group or themselves. -/
def roomObjsUnsorted (m : GameMap) (p : Player) : List RoomObj :=
  let roomPosX := p.position.1 - p.position.1 % 32
  let roomPosY := p.position.2 - p.position.2 % 32
  (m.objectgroups.filter (fun g => renderLayers.contains g.name)).flatMap
    (fun g => g.objects.filterMap (fun o =>
      if o.x - o.x % 32 = roomPosX ∧ o.y - o.y % 32 = roomPosY then
        let name := o.name?.getD "???"
        let group := pyGet o.props "Группа" ""
        let hidden := pyGet o.props "Скрыт" "false" == "true"
        let owner := pyGet o.props "Владелец" ""
        if (¬ hidden = true) ∨ (owner ≠ "" ∧ owner = p.name)
            ∨ (group ≠ "" ∧ group = p.group) ∨ (name ≠ "???" ∧ name = p.name) then
          some { name := o.name?.getD "???", x := (o.x % 32) / 4,
                 y := (o.y % 32) / 4, cls := o.cls?.getD "" }
        else none
      else none))

/-- Stable insertion by a string key: the new element goes after every
element whose key is not greater.  Folding this over a list in order is the
unique stable sort by the key, which is what Python's `sorted` computes. -/
def insertByKey (key : RoomObj → String) (a : RoomObj) : List RoomObj → List RoomObj
  | [] => [a]
  | b :: bs =>
    if pyStrLt (key a) (key b) then a :: b :: bs else b :: insertByKey key a bs

def sortByKey (key : RoomObj → String) (l : List RoomObj) : List RoomObj :=
  l.foldl (fun acc a => insertByKey key a acc) []

/-- `Map.get_same_room_objects`: the collected tuples sorted by the
concatenated string key. -/
def getSameRoomObjects (m : GameMap) (p : Player) : List RoomObj :=
  sortByKey concatKey (roomObjsUnsorted m p)

theorem pyStrLe_of_not_lt {a b : String} (h : pyStrLt b a = false) :
    pyStrLe a b = true := by
  unfold pyStrLe; rw [h]; rfl

theorem pyStrLe_of_lt {a b : String} (h : pyStrLt a b = true) :
    pyStrLe a b = true := by
  unfold pyStrLe
  unfold pyStrLt at h ⊢
  rw [charListLt_asymm h]; rfl

theorem mem_insertByKey {key : RoomObj → String} {a x : RoomObj}
    {l : List RoomObj} (h : x ∈ insertByKey key a l) : x = a ∨ x ∈ l := by
  induction l with
  | nil => simpa [insertByKey] using h
  | cons b bs ih =>
    by_cases hk : pyStrLt (key a) (key b) = true
    · simp only [insertByKey, if_pos hk] at h
      rw [List.mem_cons] at h
      rcases h with h | h
      · exact Or.inl h
      · exact Or.inr h
    · simp only [insertByKey, if_neg hk] at h
      rw [List.mem_cons] at h
      rcases h with h | h
      · exact Or.inr (by simp [h])
      · rcases ih h with h | h
        · exact Or.inl h
        · exact Or.inr (by simp [h])

theorem pairwise_insertByKey {key : RoomObj → String} {a : RoomObj}
    {l : List RoomObj}
    (h : l.Pairwise (fun x y => pyStrLe (key x) (key y) = true)) :
    (insertByKey key a l).Pairwise (fun x y => pyStrLe (key x) (key y) = true) := by
  induction l with
  | nil => simp [insertByKey]
  | cons b bs ih =>
    rcases List.pairwise_cons.mp h with ⟨hb, hbs⟩
    by_cases hk : pyStrLt (key a) (key b) = true
    · rw [insertByKey, if_pos hk]
      refine List.pairwise_cons.mpr ⟨?_, h⟩
      intro y hy
      rw [List.mem_cons] at hy
      rcases hy with rfl | hy
      · exact pyStrLe_of_lt hk
      · exact pyStrLe_trans (pyStrLe_of_lt hk) (hb _ hy)
    · rw [insertByKey, if_neg hk]
      refine List.pairwise_cons.mpr ⟨?_, ih hbs⟩
      intro y hy
      rcases mem_insertByKey hy with rfl | hy
      · exact pyStrLe_of_not_lt (Bool.eq_false_iff.mpr hk)
      · exact hb _ hy

theorem pairwise_sortByKey (key : RoomObj → String) (l : List RoomObj) :
    (sortByKey key l).Pairwise (fun x y => pyStrLe (key x) (key y) = true) := by
  unfold sortByKey
  suffices h : ∀ acc, acc.Pairwise (fun x y => pyStrLe (key x) (key y) = true) →
      (l.foldl (fun acc a => insertByKey key a acc) acc).Pairwise
        (fun x y => pyStrLe (key x) (key y) = true) by
    exact h [] (by simp)
  induction l with
  | nil => intro acc hacc; simpa using hacc
  | cons b bs ih =>
    intro acc hacc
    exact ih _ (pairwise_insertByKey hacc)

/-- The ordering claimed by the specification for C3: lexicographic on the
TUPLE `(name, str(local-x), str(local-y))` with exactly that tie-break order
(this is a spec-side definition, to be compared with the code's behaviour). -/
def tupleKeyLe (a b : RoomObj) : Bool :=
  pyStrLt a.name b.name ||
    (a.name == b.name &&
      (pyStrLt (toString a.x) (toString b.x) ||
        (toString a.x == toString b.x && pyStrLe (toString a.y) (toString b.y))))

/-- Two visible objects in one room whose names are `"B"` (at local x 2) and
`"B1"` (at local x 0): string concatenation compares `"B100" < "B20"`, while
the tuple order compares `"B" < "B1"` first. -/
def objB : MapObject :=
  { name? := some "B", x := 8, y := 0, width := 0, height := 0,
    cls? := none, props := [], hasChildren := false }

def objB1 : MapObject :=
  { name? := some "B1", x := 0, y := 0, width := 0, height := 0,
    cls? := none, props := [], hasChildren := false }

def mapC3 : GameMap :=
  { objectgroups := [{ name := "нижний", objects := [objB, objB1] }],
    layers := [] }

def playerC3 : Player :=
  { position := (4, 4), name := "Тест", inventory := [""],
    HP := 100, maxHP := 100, trueHP := 100, MP := 100, maxMP := 100,
    trueMP := 100, SP := 3, level := 1, frags := "0/4",
    active_abilities := [""], passive_abilities := [""], rerolls := 2,
    group := "", isBlind := false, isDead := false }

set_option maxRecDepth 10000 in
/-- Counterexample to claim C3 as stated: the list fed to the room renderer
is NOT sorted by the tuple `(name, str(x), str(y))` — `"B1"` (key `"B100"`)
is emitted before `"B"` (key `"B20"`), although the tuple order puts `"B"`
first. -/
theorem same_room_sort_counterexample :
    getSameRoomObjects mapC3 playerC3 =
      [{ name := "B1", x := 0, y := 0, cls := "" },
       { name := "B", x := 2, y := 0, cls := "" }]
    ∧ ¬ ((getSameRoomObjects mapC3 playerC3).Pairwise
        (fun a b => tupleKeyLe a b = true)) := by
  constructor
  · decide
  · decide

/-- Claim C3 (amended): the object list fed to the room renderer is sorted
by the single string key obtained by CONCATENATING the name with the decimal
renderings of local-x and local-y (`x[0] + str(x[1]) + str(x[2])`), not by
the tuple of those components. -/
theorem same_room_objects_sorted (m : GameMap) (p : Player) :
    (getSameRoomObjects m p).Pairwise
      (fun a b => pyStrLe (concatKey a) (concatKey b) = true) :=
  pairwise_sortByKey concatKey (roomObjsUnsorted m p)

/-! ## Inventory formatter — `Player.format_inventory_list`

Each Python regex substitution is embedded as a matcher that, at one
position, either fails or returns the replacement text and the remaining
input, plus a generic fuelled left-to-right scanner reproducing `re.sub` /
`re.findall` (leftmost match, non-overlapping continuation).  `.` never
matches a newline; lazy/greedy behaviour is resolved per pattern as the
regex engine would. -/

/-- `re.sub`-style scan: at each position try the matcher; on a match emit
its replacement and continue after the consumed text, else keep the
character and move on.  Fuel `length + 1` suffices since every match here
consumes at least one character. -/
def scanSub (try1 : List Char → Option (List Char × List Char)) :
    Nat → List Char → List Char
  | 0, cs => cs
  | _ + 1, [] => []
  | fuel + 1, c :: cs =>
    match try1 (c :: cs) with
    | some (repl, rest) => repl ++ scanSub try1 fuel rest
    | none => c :: scanSub try1 fuel cs

/-- `re.findall`-style scan collecting the matched texts. -/
def scanFindAll (try1 : List Char → Option (List Char × List Char)) :
    Nat → List Char → List (List Char)
  | 0, _ => []
  | _ + 1, [] => []
  | fuel + 1, c :: cs =>
    match try1 (c :: cs) with
    | some (m, rest) => m :: scanFindAll try1 fuel rest
    | none => scanFindAll try1 fuel cs

/-- Alternative 1 of step 2, `\?{3}(\(.*?\))` (after the `???`): a
parenthesized group, lazily closed at the first `)` with no newline before
it; the whole match is replaced by `?`. -/
def step2Alt1 (rest : List Char) : Option (List Char × List Char) :=
  match rest with
  | '(' :: r2 =>
    let pre := r2.takeWhile (fun c => c != ')' && c != '\n')
    match r2.drop pre.length with
    | ')' :: r3 => some (['?'], r3)
    | _ => none
  | _ => none

/-- Alternative 2 of step 2, `\?{3}([^,}]*),`: a greedy run of characters
other than comma/closing brace, then a comma; replaced by `???,`. -/
def step2Alt2 (rest : List Char) : Option (List Char × List Char) :=
  let pre := rest.takeWhile (fun c => c != ',' && c != '\x7d')
  match rest.drop pre.length with
  | ',' :: r3 => some (['?', '?', '?', ','], r3)
  | _ => none

/-- Alternative 3 of step 2, `\?{3}(.+?)}`: at least one non-newline
character, lazily up to the first `}` strictly after the first of them;
replaced by `???}`. -/
def step2Alt3 (rest : List Char) : Option (List Char × List Char) :=
  match rest with
  | r0 :: rtail =>
    if r0 = '\n' then none
    else
      let pre := rtail.takeWhile (fun c => c != '\x7d' && c != '\n')
      match rtail.drop pre.length with
      | '\x7d' :: r3 => some (['?', '?', '?', '\x7d'], r3)
      | _ => none
  | [] => none

/-- The full step-2 pattern `\?{3}(...)|\?{3}(...),|\?{3}(...)}` at one
position: three question marks, then the alternatives in order. -/
def tryStep2 (cs : List Char) : Option (List Char × List Char) :=
  match cs with
  | '?' :: '?' :: '?' :: rest =>
    (step2Alt1 rest).orElse (fun _ => (step2Alt2 rest).orElse (fun _ => step2Alt3 rest))
  | _ => none

/-- Step 2 of the pipeline:
`re.sub(r"\?{3}(\(.*?\))|\?{3}([^,}]*),|\?{3}(.+?)}", replacer, item)`. -/
def redactStep2 (s : String) : String :=
  String.mk (scanSub tryStep2 (s.data.length + 1) s.data)

/-- The largest `k ≥ 1` such that `run[k..k+3) = "???"`: the greedy group of
`([^ {]+)\?{3}` backtracks from the longest candidate. -/
def lastQQQ (run : List Char) : Option Nat :=
  (List.range run.length).reverse.find?
    (fun k => decide (1 ≤ k) && ((run.drop k).take 3 == ['?', '?', '?']))

/-- `([^ {]+)\?{3}` at one position: a maximal run of characters other than
space/`{` whose last three matched characters are `???`; replaced by the
group followed by one `?`. -/
def tryStep3 (cs : List Char) : Option (List Char × List Char) :=
  let run := cs.takeWhile (fun c => c != ' ' && c != '\x7b')
  match lastQQQ run with
  | some k => some (run.take k ++ ['?'], cs.drop (k + 3))
  | none => none

/-- Step 3 of the pipeline: `re.sub(r"([^ {]+)\?{3}", r"\1?", item)`. -/
def redactStep3 (s : String) : String :=
  String.mk (scanSub tryStep3 (s.data.length + 1) s.data)

/-- `\(.+?\)` at one position: `(`, at least one non-newline character,
lazily closed at the first viable `)`. -/
def tryParen (cs : List Char) : Option (List Char × List Char) :=
  match cs with
  | '(' :: r0 :: rtail =>
    if r0 = '\n' then none
    else
      let pre := rtail.takeWhile (fun c => c != ')' && c != '\n')
      match rtail.drop pre.length with
      | ')' :: rest => some ([], rest)
      | _ => none
  | _ => none

/-- Step 4 of the pipeline (hide the true item name):
`re.sub(r"\(.+?\)", "", item.split("{")[0]) + item[item.find("{")::]` when a
brace block exists, else the item unchanged. -/
def hideName (s : String) : String :=
  match s.data.findIdx? (· = '\x7b') with
  | none => s
  | some i => String.mk (scanSub tryParen (i + 1) (s.data.take i) ++ s.data.drop i)

/-- `(\d+э)\.` at one position: a digit run, `э`, `.`; the group is wrapped
in the equipped accent colour. -/
def tryEquipped (cs : List Char) : Option (List Char × List Char) :=
  let ds := cs.takeWhile Char.isDigit
  if ds.isEmpty then none
  else
    match cs.drop ds.length with
    | 'э' :: '.' :: rest =>
      some (foreGreen.data ++ ds ++ ['э'] ++ resetAll.data ++ ['.'], rest)
    | _ => none

/-- `(\([0-9]+?\/[0-9]+?\))` at one position, returning the matched text. -/
def tryDur (cs : List Char) : Option (List Char × List Char) :=
  match cs with
  | '(' :: r1 =>
    let d1 := r1.takeWhile Char.isDigit
    if d1.isEmpty then none
    else
      match r1.drop d1.length with
      | '/' :: r2 =>
        let d2 := r2.takeWhile Char.isDigit
        if d2.isEmpty then none
        else
          match r2.drop d2.length with
          | ')' :: rest => some ('(' :: d1 ++ '/' :: d2 ++ [')'], rest)
          | _ => none
      | _ => none
  | _ => none

/-- `([0-9]+?ж)` at one position: a digit run followed by `ж`, wrapped in
the price accent colour. -/
def tryPrice (cs : List Char) : Option (List Char × List Char) :=
  let ds := cs.takeWhile Char.isDigit
  if ds.isEmpty then none
  else
    match cs.drop ds.length with
    | 'ж' :: rest => some (foreYellow.data ++ ds ++ ['ж'] ++ resetAll.data, rest)
    | _ => none

/-- The threshold test `itemDurability / itemMaxDurability <= 0.25` of
`player.py` line 102, as exact rational arithmetic (the integer operands and
`0.25` are float-exact in every case this development evaluates). -/
def durLeQuarter (cur mx : Int) : Prop := (cur : ℚ) / (mx : ℚ) ≤ 1 / 4

/-- The threshold test decided by integer cross-multiplication, so that it
evaluates inside the kernel (rational division does not reduce there). -/
instance durLeQuarter.inst (cur mx : Int) : Decidable (durLeQuarter cur mx) :=
  if h0 : mx = 0 then
    isTrue (by simp [durLeQuarter, h0])
  else if hpos : 0 < mx then
    decidable_of_iff (4 * cur ≤ mx) (by
      unfold durLeQuarter
      have hq : (0 : ℚ) < (mx : ℚ) := by exact_mod_cast hpos
      rw [div_le_div_iff hq (by norm_num : (0 : ℚ) < 4), one_mul]
      constructor
      · intro h
        have h' : ((4 * cur : Int) : ℚ) ≤ ((mx : Int) : ℚ) := by exact_mod_cast h
        push_cast at h'
        linarith
      · intro h
        have h' : ((4 * cur : Int) : ℚ) ≤ ((mx : Int) : ℚ) := by
          push_cast
          linarith
        exact_mod_cast h')
  else
    decidable_of_iff (mx ≤ 4 * cur) (by
      unfold durLeQuarter
      have hneg : (mx : ℚ) < 0 := by exact_mod_cast (by omega : mx < 0)
      rw [show (cur : ℚ) / (mx : ℚ) = (-(cur : ℚ)) / (-(mx : ℚ)) by
        rw [neg_div_neg_eq]]
      rw [div_le_div_iff (by linarith : (0 : ℚ) < -(mx : ℚ))
        (by norm_num : (0 : ℚ) < 4), one_mul]
      constructor
      · intro h
        have h' : ((mx : Int) : ℚ) ≤ ((4 * cur : Int) : ℚ) := by exact_mod_cast h
        push_cast at h'
        linarith
      · intro h
        have h' : ((mx : Int) : ℚ) ≤ ((4 * cur : Int) : ℚ) := by
          push_cast
          linarith
        exact_mod_cast h')

/-- The durability colorizer (lines 97–103 of `player.py`): find all
durability pairs, parse the first, and if `current / max ≤ 0.25` wrap every
pair in the warning colour.  Python's float division by zero raises
`ZeroDivisionError` (`none` here). -/
def colorizeDurability (s : String) : Option String :=
  match scanFindAll tryDur (s.data.length + 1) s.data with
  | [] => some s
  | m :: _ =>
    let m0 : String := String.mk m
    let parts := pySplitOn (pyReplace (pyReplace m0 "(" "") ")" "") '/'
    match parts.mapM pyParseInt with
    | some [cur, mx] =>
      if mx = 0 then none
      else if durLeQuarter cur mx then
        some (String.mk (scanSub
          (fun cs => (tryDur cs).map
            (fun pr => (foreRed.data ++ pr.1 ++ resetAll.data, pr.2)))
          (s.data.length + 1) s.data))
      else some s
    | _ => none

/-- `Player.format_inventory_list` on one inventory line: the full ordered
pipeline of `player.py` lines 80–106. -/
def formatItem (item0 : String) : Option String := do
  let i1 := pyReplace (pyReplace item0 "&lt;" "<") "&gt;" ">"
  let i2 := redactStep2 i1
  let i3 := redactStep3 i2
  let i4 := hideName i3
  let i5 := pyReplace i4 "  " " "
  let i6 := String.mk (scanSub tryEquipped (i5.data.length + 1) i5.data)
  let i7 := pyReplace i6 "???" (foreMagenta ++ "???" ++ resetAll)
  let i8 ← colorizeDurability i7
  pure (String.mk (scanSub tryPrice (i8.data.length + 1) i8.data))

/-- `Player.format_inventory_list`: the pipeline over every line. -/
def formatInventoryList (inventory : List String) : Option (List String) :=
  inventory.mapM formatItem

/-- Claim C5: the step-2 redaction substitution is a no-op when applied to
its own outputs — the already-redacted strings `?`, `???,` and `???}` are
left unchanged. -/
theorem redact_step2_noop_on_outputs :
    redactStep2 "?" = "?"
    ∧ redactStep2 "???," = "???,"
    ∧ redactStep2 "???\x7d" = "???\x7d" := by
  refine ⟨?_, ?_, ?_⟩ <;> rfl

/- Sanity checks of the pipeline against the repository's own
`tests/test_player.py` expectations. -/
example : formatItem "27ж" = some (foreYellow ++ "27ж" ++ resetAll) := by rfl

example :
    formatItem "2. test item 2 \x7b???, shown???hidden, ???(hidden)shown, full\x7d (1/10)"
      = some ("2. test item 2 \x7b" ++ foreMagenta ++ "???" ++ resetAll ++
          ", shown?, ?shown, full\x7d " ++ foreRed ++ "(1/10)" ++ resetAll) := by
  decide

example :
    formatItem "3э. test item 3 (real item name) \x7bsomething, ???\x7d (2/10)"
      = some (foreGreen ++ "3э" ++ resetAll ++ ". test item 3 \x7bsomething, " ++
          foreMagenta ++ "???" ++ resetAll ++ "\x7d " ++ foreRed ++ "(2/10)" ++ resetAll) := by
  decide

/-- Claim C10: the durability colorizer divides the parsed current
durability by the parsed maximum without guarding against zero; a line whose
first durability pair is `(1/0)` makes `format_inventory_list` raise
`ZeroDivisionError` instead of returning a formatted list. -/
theorem format_inventory_div_zero : formatInventoryList ["меч (1/0)"] = none := by
  rfl

/-! ## Player extraction — `Map.get_player` -/

/-- The exceptions `Map.get_player` can raise:
`MapObjectNotFoundException`, `MapObjectWrongIDException`, and the
`ValueError`/`IndexError` family from malformed stat strings. -/
inductive MapExc where
  | notFound (msg : String)
  | wrongID (msg : String)
  | valueErr
deriving DecidableEq

/-- Lines 125–128 (и 129–132) of `mapparser.py`: parse a composite stat
string `"cur/max (true)"` — `int(s.split()[0].split("/")[0])`,
`float(s.split()[0].split("/")[1])`, `int(s.split()[1][1:-1])`.  Any
IndexError/ValueError is `none`. -/
def parseStatPair (s : String) : Option (Int × ℚ × Int) := do
  let parts := pySplitWS s
  let p0 ← parts.get? 0
  let s0 ← (pySplitOn p0 '/').get? 0
  let cur ← pyParseInt s0
  let s1 ← (pySplitOn p0 '/').get? 1
  let mx ← pyParseQ s1
  let p1 ← parts.get? 1
  let tr ← pyParseInt (String.mk ((p1.data.drop 1).dropLast))
  pure (cur, mx, tr)

/-- `Map.get_player`.  Note the guard is Python's `if not pl:` — element
TRUTHINESS, which is false both for `None` and for an element without child
elements — so an existing object with no children also raises "not found".
The stat parses and inventory formatting can raise (`valueErr`). -/
def getPlayer (m : GameMap) (playername playerID : String) : Except MapExc Player :=
  match searchObject m playername with
  | none => .error (.notFound ("No object with name `" ++ playername ++ "` found."))
  | some pl =>
    if ¬ pl.hasChildren then
      .error (.notFound ("No object with name `" ++ playername ++ "` found."))
    else
      let props := pl.props
      let foundPlayerID := pyGet props "ID игрока" ""
      if playerID ≠ foundPlayerID then
        .error (.wrongID ("ID `" ++ foundPlayerID ++ "` expected for `" ++
          playername ++ "`, got " ++ playerID ++ " instead."))
      else
        match formatInventoryList (pySplitOn (pyGet props "Инвентарь" "") '\n'),
              parseStatPair (pyGet props "Очки Здоровья" "100/100 (100)"),
              parseStatPair (pyGet props "Очки Маны" "100/100 (100)"),
              pyParseQ (pyGet props "Очки Души" "3"),
              pyParseInt (pyGet props "Рероллы" "2"),
              pyParseInt (pyGet props "Уровень" "1") with
        | some inv, some hpT, some mpT, some sp, some rr, some lv =>
          .ok { position := (pl.x, pl.y),
                name := pl.name?.getD "",
                inventory := inv,
                HP := hpT.1, maxHP := hpT.2.1, trueHP := hpT.2.2,
                MP := mpT.1, maxMP := mpT.2.1, trueMP := mpT.2.2,
                SP := sp, level := lv,
                frags := pyGet props "Фраги" "0/4",
                active_abilities := pySplitOn (pyGet props "Навыки" "") '\n',
                passive_abilities := pySplitOn (pyGet props "Особенности" "") '\n',
                rerolls := rr,
                group := pyGet props "Группа" "",
                isBlind := ["true", "1"].contains (pyLower (pyGet props "Ослеплён" "false")),
                isDead := pyLower (pl.cls?.getD "Игрок") == "труп" }
        | _, _, _, _, _, _ => .error .valueErr

/-- An object named `Алиса` that exists in a render layer but has no child
elements: Python's `if not pl:` treats it as falsy. -/
def bugObj : MapObject :=
  { name? := some "Алиса", x := 0, y := 0, width := 0, height := 0,
    cls? := none, props := [], hasChildren := false }

def bugMap : GameMap :=
  { objectgroups := [{ name := "нижний", objects := [bugObj] }], layers := [] }

/-- Claim C7, exhibiting the code bug: the claim says the not-found error is
raised exactly when no object with the name exists, but `get_player` guards
with `if not pl:` — element truthiness, not an `is None` test (contrast
`get_objects_inventory`, which correctly uses `if obj is None`).  An object
that exists but has no child elements is falsy, so lookup raises "not found"
even though the object exists and its (empty) properties would pass the
identity check for the default ID `""`. -/
theorem get_player_not_found_bug :
    searchObject bugMap "Алиса" = some bugObj
    ∧ getPlayer bugMap "Алиса" "" =
        .error (.notFound "No object with name `Алиса` found.") :=
  ⟨rfl, rfl⟩

/-- Claim C9: when the hit-point property is absent, the HP stage of player
construction succeeds on the default stat string `"100/100 (100)"` (absence
is not an error), giving current 100, maximum 100.0 and true 100, and
`format_HP` renders `"100/100.0 (100)"` — the maximum displayed as a
one-decimal float while current and true stay integers. -/
theorem hp_default_spec (props : List (String × String))
    (h : pyGet? props "Очки Здоровья" = none) (p : Player)
    (h1 : p.HP = 100) (h2 : p.maxHP = 100) (h3 : p.trueHP = 100) :
    parseStatPair (pyGet props "Очки Здоровья" "100/100 (100)")
      = some (100, 100, 100)
    ∧ formatHP p = "100/100.0 (100)" := by
  have hget : pyGet props "Очки Здоровья" "100/100 (100)" = "100/100 (100)" := by
    unfold pyGet
    unfold pyGet? at h
    cases hfind : props.reverse.find? (fun kv => kv.1 == "Очки Здоровья") with
    | none => simp
    | some kv => rw [hfind] at h; simp at h
  rw [hget]
  refine ⟨by decide, ?_⟩
  unfold formatHP
  rw [h1, h2, h3]
  decide

def playerHP100 : Player :=
  { position := (0, 0), name := "Тест", inventory := [""],
    HP := 100, maxHP := 100, trueHP := 100, MP := 100, maxMP := 100,
    trueMP := 100, SP := 3, level := 1, frags := "0/4",
    active_abilities := [""], passive_abilities := [""], rerolls := 2,
    group := "", isBlind := false, isDead := false }

theorem hp_default_spec_witness :
    parseStatPair (pyGet [] "Очки Здоровья" "100/100 (100)")
      = some (100, 100, 100)
    ∧ formatHP playerHP100 = "100/100.0 (100)" :=
  hp_default_spec [] rfl playerHP100 rfl rfl rfl

/-! ## Room renderer — `Map.construct_ascii_room` -/

/-- `Map.ASCII_DEFAULT_CHARS` (the fallback glyph alphabet), character by
character; code points 39 and 96 are the apostrophe and the backquote. -/
def asciiDefaultChars : List Char :=
  ['!', '"', '#', '$', '%', '&', Char.ofNat 39, '(', ')', '*', '+', ',', '-',
   '.', '/', ':', ';', '<', '=', '>', '?', '[', '\\', ']', '^', '_',
   Char.ofNat 96, '\x7b', '|', '\x7d', '~',
   '0', '1', '2', '3', '4', '5', '6', '7', '8', '9',
   'A', 'B', 'C', 'D', 'E', 'F', 'G', 'H', 'I', 'J', 'K', 'L', 'M', 'N',
   'O', 'P', 'Q', 'R', 'S', 'T', 'U', 'V', 'W']

/-- The mutable state threaded through the glyph-assignment loop:
the 8×8 grid, the insertion-ordered legend dict, the used glyphs, and the
fallback-alphabet cursor. -/
structure RoomState where
  grid : List (List String)
  legend : List (String × List String)
  used : List Char
  nextIdx : Nat
deriving DecidableEq

/-- Python dict assignment `d[k] = v`: update in place if the key exists,
else append (insertion order). -/
def dictAssign (k : String) (v : List String) :
    List (String × List String) → List (String × List String)
  | [] => [(k, v)]
  | kv :: rest => if kv.1 = k then (k, v) :: rest else kv :: dictAssign k v rest

/-- Python `del d[k]`. -/
def dictDelete (k : String) (d : List (String × List String)) :
    List (String × List String) :=
  d.filter (fun kv => kv.1 != k)

/-- Python `d[k]` lookup (`none` = `KeyError`). -/
def dictGet? (d : List (String × List String)) (k : String) :
    Option (List String) :=
  (d.find? (fun kv => kv.1 == k)).map (·.2)

/-- `x - playerPos[0] in range(-1, 2) and y - playerPos[1] in range(-1, 2)`:
the 3×3 window centred on the player's local cell. -/
def inWinB (px py x y : Int) : Bool :=
  (decide (-1 ≤ x - px) && decide (x - px < 2)) &&
    (decide (-1 ≤ y - py) && decide (y - py < 2))

/-- The initial 8×8 grid: `.` everywhere, except that a blind player sees
`?` outside the 3×3 window. -/
def initGrid (blind : Bool) (px py : Int) : List (List String) :=
  (List.range 8).map (fun (y : Nat) => (List.range 8).map (fun (x : Nat) =>
    if !blind || (blind && inWinB px py (x : Int) (y : Int)) then "." else "?"))

/-- `representation[y][x] = v` (`none` = `IndexError`). -/
def setCell (g : List (List String)) (y x : Nat) (v : String) :
    Option (List (List String)) :=
  match g.get? y with
  | none => none
  | some row => if x < row.length then some (g.set y (row.set x v)) else none

/-- `representation[y][x]` as a read. -/
def cellAt (g : List (List String)) (x y : Nat) : Option String :=
  (g.get? y).bind (fun row => row.get? x)

/-- The `while self.__loose_char_in(firstChar, usedChars)` loop advancing
through the fallback alphabet (`none` = `IndexError` past its end; the fuel
exceeds the remaining alphabet, so it never expires first). -/
def whileLoose (used : List Char) : Nat → Char → Nat → Option (Char × Nat)
  | 0, _, _ => none
  | fuel + 1, c, idx =>
    if looseCharIn c used then
      match asciiDefaultChars.get? idx with
      | none => none
      | some c' => whileLoose used fuel c' (idx + 1)
    else some (c, idx)

/-- One iteration of the object loop of `Map.construct_ascii_room`
(lines 220–267 of `mapparser.py`).  Each fallible Python step is an explicit
`match`, `none` standing for the raised exception. -/
def processObj (p : Player) (px py : Int) (st : RoomState) (o : RoomObj) :
    Option RoomState :=
  if p.isBlind && !(inWinB px py o.x o.y) then some st
  else
    match st.grid.get? o.y.toNat with
    | none => none
    | some row =>
      match row.get? o.x.toNat with
      | none => none
      | some existing =>
        if existing ≠ "." then
          if o.name = p.name then
            match
              (if listContainsSub resetAll.data existing.data then
                if 5 ≤ existing.data.length then
                  (existing.data.get? (existing.data.length - 5)).map
                    (fun c => String.mk [c])
                else none
              else some existing) with
            | none => none
            | some actual =>
              let colored := backWhite ++ foreBlack ++ actual ++ resetAll
              match dictGet? st.legend existing with
              | none => none
              | some names =>
                match setCell st.grid o.y.toNat o.x.toNat colored with
                | none => none
                | some grid2 =>
                  some { st with grid := grid2,
                                 legend := dictDelete existing
                                   (dictAssign colored (names ++ [o.name]) st.legend) }
          else
            match dictGet? st.legend existing with
            | none => none
            | some names =>
              some { st with
                legend := dictAssign existing (names ++ [o.name]) st.legend }
        else
          match o.name.data.get? 0 with
          | none => none
          | some c0 =>
            let fc0 := pyUpperChar c0
            let fc1 := if looseCharIn fc0 st.used then pyLowerChar fc0 else fc0
            match whileLoose st.used (asciiDefaultChars.length + 2) fc1 st.nextIdx with
            | none => none
            | some fcp =>
              let fcs := String.mk [fcp.1]
              let colored :=
                if o.name = p.name then backWhite ++ foreBlack ++ fcs ++ resetAll
                else if o.cls = "НПЦ" then foreRed ++ fcs ++ resetAll
                else if o.cls = "Предмет(-ы)" then foreBlue ++ fcs ++ resetAll
                else if o.cls = "Игрок" then foreWhite ++ fcs ++ resetAll
                else if o.cls = "Труп" then foreBlack ++ fcs ++ resetAll
                else if o.cls = "Структура" then foreYellow ++ fcs ++ resetAll
                else fcs
              match setCell st.grid o.y.toNat o.x.toNat colored with
              | none => none
              | some grid2 =>
                some { grid := grid2,
                       legend := dictAssign colored [o.name] st.legend,
                       used := st.used ++ [fcp.1],
                       nextIdx := fcp.2 }

/-- The whole object loop of `Map.construct_ascii_room`, from the initial
grid over the sorted room objects. -/
def roomLoop (m : GameMap) (p : Player) : Option RoomState :=
  (getSameRoomObjects m p).foldlM (processObj p (localX p) (localY p))
    { grid := initGrid p.isBlind (localX p) (localY p),
      legend := [], used := [], nextIdx := 0 }

/-- `Map.construct_ascii_room`: grid rows joined, blank line, legend lines. -/
def constructAsciiRoom (m : GameMap) (p : Player) : Option String := do
  let st ← roomLoop m p
  let representation :=
    String.intercalate "\n" (st.grid.map (fun r => String.join r))
  let legend := String.intercalate "\n"
    (st.legend.map (fun kv => kv.1 ++ ": " ++ String.intercalate ", " kv.2))
  pure (representation ++ "\n\n" ++ legend)

/-! ### Lemmas towards the blindness claim (C6) -/

theorem mem_insertByKey_iff {key : RoomObj → String} {a x : RoomObj}
    {l : List RoomObj} : x ∈ insertByKey key a l ↔ x = a ∨ x ∈ l := by
  constructor
  · exact mem_insertByKey
  · intro h
    induction l with
    | nil =>
      rcases h with rfl | h
      · simp [insertByKey]
      · cases h
    | cons b bs ih =>
      by_cases hk : pyStrLt (key a) (key b) = true
      · rw [insertByKey, if_pos hk]
        rcases h with rfl | h
        · exact List.mem_cons_self _ _
        · exact List.mem_cons_of_mem _ h
      · rw [insertByKey, if_neg hk]
        rcases h with rfl | h
        · exact List.mem_cons_of_mem _ (ih (Or.inl rfl))
        · rw [List.mem_cons] at h
          rcases h with rfl | h
          · exact List.mem_cons_self _ _
          · exact List.mem_cons_of_mem _ (ih (Or.inr h))

theorem mem_sortByKey_iff {key : RoomObj → String} {x : RoomObj}
    {l : List RoomObj} : x ∈ sortByKey key l ↔ x ∈ l := by
  unfold sortByKey
  suffices h : ∀ acc, x ∈ l.foldl (fun acc a => insertByKey key a acc) acc ↔
      x ∈ acc ∨ x ∈ l by
    rw [h []]; simp
  induction l with
  | nil => intro acc; simp
  | cons b bs ih =>
    intro acc
    rw [List.foldl_cons, ih (insertByKey key b acc), mem_insertByKey_iff]
    rw [List.mem_cons]
    tauto

/-- Local coordinates produced by `get_same_room_objects` lie in `0..7`. -/
theorem roomObj_coords_bounded {m : GameMap} {p : Player} {o : RoomObj}
    (h : o ∈ getSameRoomObjects m p) :
    0 ≤ o.x ∧ o.x < 8 ∧ 0 ≤ o.y ∧ o.y < 8 := by
  rw [getSameRoomObjects, mem_sortByKey_iff] at h
  unfold roomObjsUnsorted at h
  rw [List.mem_flatMap] at h
  obtain ⟨g, hg, h⟩ := h
  rw [List.mem_filterMap] at h
  obtain ⟨ob, hob, heq⟩ := h
  dsimp only at heq
  split at heq
  · split at heq
    · injection heq with heq
      subst heq
      have hx1 : 0 ≤ ob.x % 32 := Int.emod_nonneg _ (by norm_num)
      have hx2 : ob.x % 32 < 32 := Int.emod_lt_of_pos _ (by norm_num)
      have hy1 : 0 ≤ ob.y % 32 := Int.emod_nonneg _ (by norm_num)
      have hy2 : ob.y % 32 < 32 := Int.emod_lt_of_pos _ (by norm_num)
      have hdx := Int.ediv_add_emod (ob.x % 32) 4
      have hdx1 : 0 ≤ (ob.x % 32) % 4 := Int.emod_nonneg _ (by norm_num)
      have hdx2 : (ob.x % 32) % 4 < 4 := Int.emod_lt_of_pos _ (by norm_num)
      have hdy := Int.ediv_add_emod (ob.y % 32) 4
      have hdy1 : 0 ≤ (ob.y % 32) % 4 := Int.emod_nonneg _ (by norm_num)
      have hdy2 : (ob.y % 32) % 4 < 4 := Int.emod_lt_of_pos _ (by norm_num)
      refine ⟨?_, ?_, ?_, ?_⟩ <;> simp only [] <;> omega
    · exact absurd heq (by simp)
  · exact absurd heq (by simp)

theorem get?_set_ne {α : Type} (l : List α) (i j : Nat) (a : α) (h : i ≠ j) :
    (l.set i a).get? j = l.get? j := by
  induction l generalizing i j with
  | nil => simp
  | cons b bs ih =>
    cases i with
    | zero =>
      cases j with
      | zero => omega
      | succ j => simp
    | succ i =>
      cases j with
      | zero => simp
      | succ j =>
        simp only [List.set_cons_succ, List.get?_cons_succ]
        exact ih i j (by omega)

theorem get?_set_self {α : Type} (l : List α) (i : Nat) (a : α)
    (h : i < l.length) : (l.set i a).get? i = some a := by
  induction l generalizing i with
  | nil => simp at h
  | cons b bs ih =>
    cases i with
    | zero => simp
    | succ i =>
      simp only [List.set_cons_succ, List.get?_cons_succ]
      exact ih i (by simpa using h)

/-- Writing one cell leaves every other cell unchanged. -/
theorem cellAt_setCell_ne {g g' : List (List String)} {y x : Nat} {v : String}
    (h : setCell g y x v = some g') {x' y' : Nat}
    (hne : ¬ (x' = x ∧ y' = y)) : cellAt g' x' y' = cellAt g x' y' := by
  unfold setCell at h
  cases hg : g.get? y with
  | none => rw [hg] at h; exact absurd h (by simp)
  | some row =>
    simp only [hg] at h
    by_cases hx : x < row.length
    · rw [if_pos hx] at h
      injection h with h
      subst h
      unfold cellAt
      by_cases hy' : y' = y
      · rw [hy']
        have hylen : y < g.length := by
          by_contra hc
          rw [List.get?_eq_none.mpr (by omega)] at hg
          cases hg
        rw [get?_set_self g y _ hylen, hg]
        have hx' : x' ≠ x := fun hc => hne ⟨hc, hy'⟩
        simp only [Option.some_bind]
        exact get?_set_ne row x x' v (fun hc => hx' hc.symm)
      · rw [get?_set_ne g y y' _ (fun hc => hy' hc.symm)]
    · rw [if_neg hx] at h
      exact absurd h (by simp)

theorem mem_dictAssign {d : List (String × List String)} {k : String}
    {v : List String} {kv : String × List String}
    (h : kv ∈ dictAssign k v d) : kv = (k, v) ∨ kv ∈ d := by
  induction d with
  | nil => simpa [dictAssign] using h
  | cons kv' rest ih =>
    by_cases hk : kv'.1 = k
    · rw [dictAssign, if_pos hk] at h
      rw [List.mem_cons] at h
      rcases h with rfl | h
      · exact Or.inl rfl
      · exact Or.inr (List.mem_cons_of_mem _ h)
    · rw [dictAssign, if_neg hk] at h
      rw [List.mem_cons] at h
      rcases h with rfl | h
      · exact Or.inr (List.mem_cons_self _ _)
      · rcases ih h with h | h
        · exact Or.inl h
        · exact Or.inr (List.mem_cons_of_mem _ h)

theorem mem_dictDelete {d : List (String × List String)} {k : String}
    {kv : String × List String} (h : kv ∈ dictDelete k d) : kv ∈ d :=
  List.mem_of_mem_filter h

theorem dictGet?_mem {d : List (String × List String)} {k : String}
    {v : List String} (h : dictGet? d k = some v) : ∃ kv ∈ d, kv.2 = v := by
  unfold dictGet? at h
  cases hf : d.find? (fun kv => kv.1 == k) with
  | none => rw [hf] at h; exact absurd h (by simp)
  | some kv =>
    rw [hf] at h
    refine ⟨kv, List.mem_of_find?_eq_some hf, ?_⟩
    injection h

/-- In the initial grid of a blind player, a cell outside the 3×3 window
holds `?`. -/
theorem initGrid_outside {px py : Int} {x y : Nat} (hx : x < 8) (hy : y < 8)
    (hwin : inWinB px py x y = false) :
    cellAt (initGrid true px py) x y = some "?" := by
  unfold initGrid cellAt
  rw [List.get?_map, List.get?_range hy]
  simp only [Option.map_some', Option.some_bind]
  rw [List.get?_map, List.get?_range hx]
  simp [hwin]

/-- Grid invariant: every in-range cell outside the 3×3 window reads `?`. -/
def OutsideUnknown (px py : Int) (grid : List (List String)) : Prop :=
  ∀ x y : Nat, x < 8 → y < 8 → inWinB px py x y = false →
    cellAt grid x y = some "?"

/-- Legend invariant: every name in the legend belongs to an in-window
object of `U`. -/
def LegendFromWindow (U : List RoomObj) (px py : Int)
    (legend : List (String × List String)) : Prop :=
  ∀ kv ∈ legend, ∀ nm ∈ kv.2,
    ∃ o ∈ U, inWinB px py o.x o.y = true ∧ o.name = nm

/-- One loop iteration preserves both invariants for a blind player. -/
theorem processObj_invariant {p : Player} {px py : Int} {st st' : RoomState}
    {o : RoomObj} {U : List RoomObj}
    (hb : p.isBlind = true) (hU : o ∈ U)
    (hbx : 0 ≤ o.x) (hbx8 : o.x < 8) (hby : 0 ≤ o.y) (hby8 : o.y < 8)
    (hout : OutsideUnknown px py st.grid)
    (hleg : LegendFromWindow U px py st.legend)
    (h : processObj p px py st o = some st') :
    OutsideUnknown px py st'.grid ∧ LegendFromWindow U px py st'.legend := by
  unfold processObj at h
  rw [hb] at h
  by_cases hwin : inWinB px py o.x o.y = true
  case neg =>
    rw [Bool.not_eq_true] at hwin
    rw [hwin] at h
    simp only [Bool.not_false, Bool.and_true, if_true] at h
    injection h with h
    subst h
    exact ⟨hout, hleg⟩
  case pos =>
    rw [hwin] at h
    simp only [Bool.not_true, Bool.and_false, Bool.false_eq_true, if_false] at h
    have hkey : ∀ x' y' : Nat, inWinB px py x' y' = false →
        ¬ (x' = o.x.toNat ∧ y' = o.y.toNat) := by
      rintro x' y' hf ⟨hc1, hc2⟩
      have hcx : (x' : Int) = o.x := by
        rw [hc1]; exact Int.toNat_of_nonneg hbx
      have hcy : (y' : Int) = o.y := by
        rw [hc2]; exact Int.toNat_of_nonneg hby
      rw [hcx, hcy] at hf
      rw [hf] at hwin
      exact Bool.noConfusion hwin
    have hnew : ∀ (colored : String) (names : List String),
        (∀ nm ∈ names, ∃ ob ∈ U, inWinB px py ob.x ob.y = true ∧ ob.name = nm) →
        LegendFromWindow U px py (dictAssign colored (names ++ [o.name]) st.legend) := by
      intro colored names hnm kv hkv nm hnmm
      rcases mem_dictAssign hkv with rfl | hkv
      · rcases List.mem_append.mp hnmm with hn | hn
        · exact hnm nm hn
        · rw [List.mem_singleton] at hn
          exact ⟨o, hU, hwin, hn.symm⟩
      · exact hleg kv hkv nm hnmm
    split at h
    · exact Option.noConfusion h
    · rename_i row hrow
      split at h
      · exact Option.noConfusion h
      · rename_i existing hex
        split at h
        · -- existing ≠ "."
          split at h
          · -- the object is the viewer: move the legend entry
            split at h
            · exact Option.noConfusion h
            · rename_i actual hactual
              split at h
              · exact Option.noConfusion h
              · rename_i names hnames
                split at h
                · exact Option.noConfusion h
                · rename_i grid2 hgrid2
                  injection h with h
                  subst h
                  obtain ⟨kv0, hkv0, hkv0v⟩ := dictGet?_mem hnames
                  refine ⟨?_, ?_⟩
                  · intro x' y' hx' hy' hf
                    have hpres := cellAt_setCell_ne hgrid2 (hkey x' y' hf)
                    dsimp only
                    rw [hpres]
                    exact hout x' y' hx' hy' hf
                  · intro kv hkv nm hnmm
                    dsimp only at hkv
                    have hkv' := mem_dictDelete hkv
                    exact hnew _ names
                      (fun nm' hnm' => hleg kv0 hkv0 nm' (by rw [hkv0v]; exact hnm'))
                      kv hkv' nm hnmm
          · -- another object already holds the cell: append to its entry
            split at h
            · exact Option.noConfusion h
            · rename_i names hnames
              injection h with h
              subst h
              obtain ⟨kv0, hkv0, hkv0v⟩ := dictGet?_mem hnames
              refine ⟨hout, ?_⟩
              intro kv hkv nm hnmm
              dsimp only at hkv
              exact hnew existing names
                (fun nm' hnm' => hleg kv0 hkv0 nm' (by rw [hkv0v]; exact hnm'))
                kv hkv nm hnmm
        · -- empty cell: assign a fresh glyph
          split at h
          · exact Option.noConfusion h
          · rename_i c0 hc0
            split at h
            · exact Option.noConfusion h
            · rename_i fcp hfcp
              split at h
              · exact Option.noConfusion h
              · rename_i grid2 hgrid2
                injection h with h
                subst h
                refine ⟨?_, ?_⟩
                · intro x' y' hx' hy' hf
                  have hpres := cellAt_setCell_ne hgrid2 (hkey x' y' hf)
                  dsimp only
                  rw [hpres]
                  exact hout x' y' hx' hy' hf
                · intro kv hkv nm hnmm
                  dsimp only at hkv
                  rcases mem_dictAssign hkv with rfl | hkv
                  · rw [List.mem_singleton] at hnmm
                    exact ⟨o, hU, hwin, hnmm.symm⟩
                  · exact hleg kv hkv nm hnmm

/-- The invariants survive the whole fold of the object loop. -/
theorem foldl_processObj_invariant {p : Player} {px py : Int}
    {U : List RoomObj} (hb : p.isBlind = true) (objs : List RoomObj)
    (hobjs : ∀ o ∈ objs, o ∈ U ∧ 0 ≤ o.x ∧ o.x < 8 ∧ 0 ≤ o.y ∧ o.y < 8) :
    ∀ st st' : RoomState, OutsideUnknown px py st.grid →
      LegendFromWindow U px py st.legend →
      objs.foldlM (processObj p px py) st = some st' →
      OutsideUnknown px py st'.grid ∧ LegendFromWindow U px py st'.legend := by
  induction objs with
  | nil =>
    intro st st' h1 h2 h
    simp only [List.foldlM_nil, Option.pure_def, Option.some.injEq] at h
    subst h
    exact ⟨h1, h2⟩
  | cons o rest ih =>
    intro st st' h1 h2 h
    rw [List.foldlM_cons] at h
    cases hstep : processObj p px py st o with
    | none => rw [hstep] at h; exact Option.noConfusion h
    | some st1 =>
      rw [hstep] at h
      have hrest : rest.foldlM (processObj p px py) st1 = some st' := h
      obtain ⟨ho1, ho2, ho3, ho4, ho5⟩ := hobjs o (List.mem_cons_self _ _)
      have hinv := processObj_invariant hb ho1 ho2 ho3 ho4 ho5 h1 h2 hstep
      exact ih (fun o' ho' => hobjs o' (List.mem_cons_of_mem _ ho'))
        st1 st' hinv.1 hinv.2 hrest

/-- Claim C6: for a blind player, the rendered 8×8 room grid shows the
uncertainty glyph `?` on every cell outside the 3×3 window centred on the
player's local cell, and every object outside that window is skipped by
glyph assignment — every name in the legend belongs to an in-window object
(so out-of-window objects occupy no cell and never appear in the legend). -/
theorem construct_ascii_room_blind_spec (m : GameMap) (p : Player)
    (hb : p.isBlind = true) (st : RoomState)
    (h : roomLoop m p = some st) :
    (∀ x y : Nat, x < 8 → y < 8 →
      inWinB (localX p) (localY p) x y = false →
      cellAt st.grid x y = some "?")
    ∧ (∀ kv ∈ st.legend, ∀ nm ∈ kv.2,
        ∃ o ∈ getSameRoomObjects m p,
          inWinB (localX p) (localY p) o.x o.y = true ∧ o.name = nm) := by
  unfold roomLoop at h
  have key : OutsideUnknown (localX p) (localY p) st.grid
      ∧ LegendFromWindow (getSameRoomObjects m p) (localX p) (localY p) st.legend := by
    refine foldl_processObj_invariant hb (getSameRoomObjects m p)
      (fun o ho => ⟨ho, ?_, ?_, ?_, ?_⟩) _ st ?_ ?_ h
    · exact (roomObj_coords_bounded ho).1
    · exact (roomObj_coords_bounded ho).2.1
    · exact (roomObj_coords_bounded ho).2.2.1
    · exact (roomObj_coords_bounded ho).2.2.2
    · intro x y hx hy hwin
      rw [hb]
      exact initGrid_outside hx hy hwin
    · intro kv hkv
      cases hkv
  exact ⟨key.1, key.2⟩

/-- Witness for C6: a blind player alone in an empty map; the far corner of
the rendered grid reads `?`. -/
def playerBlindW : Player :=
  { position := (0, 0), name := "Тест", inventory := [""],
    HP := 100, maxHP := 100, trueHP := 100, MP := 100, maxMP := 100,
    trueMP := 100, SP := 3, level := 1, frags := "0/4",
    active_abilities := [""], passive_abilities := [""], rerolls := 2,
    group := "", isBlind := true, isDead := false }

def mapEmptyW : GameMap := { objectgroups := [], layers := [] }

theorem construct_ascii_room_blind_spec_witness :
    cellAt (initGrid true 0 0) 7 7 = some "?" :=
  (construct_ascii_room_blind_spec mapEmptyW playerBlindW rfl
    { grid := initGrid true 0 0, legend := [], used := [], nextIdx := 0 }
    rfl).1 7 7 (by decide) (by decide) (by decide)
